import Mathlib

/-!
Shallow embedding of the SeisSol linear slip-weakening friction solver
(`LinearSlipWeakeningLaw` and `friction_law::Common`) over exact real
arithmetic.  The per-point loop bodies of the C++ code are translated as
pure functions of per-point records; per-face arrays are obtained by
quantifying over all per-point inputs, since every loop iteration is
independent.  Floating-point rounding is idealized as real arithmetic.
-/

noncomputable section

namespace seissol

namespace misc

/-- Modelled from the spec: the helper `misc::magnitude` (its definition is
not part of the sources at hand); the spec states the magnitude of a shear
traction vector is the euclidean norm sqrt(T1^2 + T2^2). -/
def magnitude (x y : ℝ) : ℝ := Real.sqrt (x ^ 2 + y ^ 2)

end misc

namespace LinearSlipWeakeningLaw

/-- Per-face impedance constants, `impAndEta[ltsFace]`: the effective shear
impedance etaS and its stored inverse invEtaS. -/
structure ImpAndEta where
  etaS : ℝ
  invEtaS : ℝ

/-- Per-point, per-sub-interval inputs of `calcSlipRateAndTraction`:
the two initial shear stress components (indices 3 and 5 of
`initialStressInFaultCS`), the kernel-computed shear tractions of the
current time sub-interval, the strength from the strength stage, the face
impedances, the sub-interval length `deltaT[timeIndex]`, and the incoming
directional slip accumulators. -/
structure SlipRateInput where
  initialStress3 : ℝ
  initialStress5 : ℝ
  faultTraction1 : ℝ
  faultTraction2 : ℝ
  strengthVal : ℝ
  impAndEta : ImpAndEta
  deltaT : ℝ
  slip1 : ℝ
  slip2 : ℝ

/-- Per-point outputs of `calcSlipRateAndTraction`: the slip-rate
magnitude and directional slip rates, the resulting tractions
(`tractionResults.traction1/2`, also stored into `this->traction1/2`),
and the updated directional slip accumulators. -/
structure SlipRateOutput where
  slipRateMagnitude : ℝ
  slipRate1 : ℝ
  slipRate2 : ℝ
  traction1 : ℝ
  traction2 : ℝ
  slip1 : ℝ
  slip2 : ℝ

/-- `totalTraction1` of the loop body: initial stress component 3 plus the
kernel-computed first shear traction. -/
def totalTraction1 (inp : SlipRateInput) : ℝ := inp.initialStress3 + inp.faultTraction1

/-- `totalTraction2` of the loop body: initial stress component 5 plus the
kernel-computed second shear traction. -/
def totalTraction2 (inp : SlipRateInput) : ℝ := inp.initialStress5 + inp.faultTraction2

/-- Loop body of `LinearSlipWeakeningLaw::calcSlipRateAndTraction` for one
point and one time sub-interval. -/
def calcSlipRateAndTraction (inp : SlipRateInput) : SlipRateOutput :=
  let tt1 := totalTraction1 inp
  let tt2 := totalTraction2 inp
  let absoluteTraction := misc.magnitude tt1 tt2
  let srm := max 0 ((absoluteTraction - inp.strengthVal) * inp.impAndEta.invEtaS)
  let div := inp.strengthVal + inp.impAndEta.etaS * srm
  let sr1 := srm * tt1 / div
  let sr2 := srm * tt2 / div
  { slipRateMagnitude := srm
    slipRate1 := sr1
    slipRate2 := sr2
    traction1 := inp.faultTraction1 - inp.impAndEta.etaS * sr1
    traction2 := inp.faultTraction2 - inp.impAndEta.etaS * sr2
    slip1 := inp.slip1 + sr1 * inp.deltaT
    slip2 := inp.slip2 + sr2 * inp.deltaT }

/-- The divisor `strength + etaS * slipRateMagnitude` of the directional
slip-rate computation, with `slipRateMagnitude` as just computed. -/
def divisor (inp : SlipRateInput) : ℝ :=
  inp.strengthVal + inp.impAndEta.etaS * (calcSlipRateAndTraction inp).slipRateMagnitude

/-- Per-point inputs of `calcStrengthHook` (no-op specialization): initial
normal stress (index 0 of `initialStressInFaultCS`), the kernel-computed
normal stress of the sub-interval, and the face's cohesion and current
friction coefficient at the point. -/
structure StrengthInput where
  initialStress0 : ℝ
  normalStress : ℝ
  cohesion : ℝ
  mu : ℝ

/-- `totalNormalStress` of the strength loop body. -/
def totalNormalStress (inp : StrengthInput) : ℝ := inp.initialStress0 + inp.normalStress

/-- Loop body of `LinearSlipWeakeningLaw::calcStrengthHook` under
`NoSpecialization` (whose `strengthHook` is a no-op). -/
def calcStrengthHook (inp : StrengthInput) : ℝ :=
  -inp.cohesion - inp.mu * min (totalNormalStress inp) 0

/-- Slip integration step of `calcStateVariableHook`:
`accumulatedSlipMagnitude += resampledSlipRate * deltaT`. -/
def updateSlip (acc resampledSlipRate deltaT : ℝ) : ℝ := acc + resampledSlipRate * deltaT

/-- State-variable formula of `calcStateVariableHook`:
`min(fabs(accumulatedSlipMagnitude) / dC, 1)`. -/
def stateVariableOf (acc dC : ℝ) : ℝ := min (|acc| / dC) 1

/-- Loop body of `LinearSlipWeakeningLaw::calcStateVariableHook` for one
point, under a specialization whose `stateVariableHook` is the identity
(e.g. `NoSpecialization`).  The resampled slip rate is the output of the
opaque generated resample kernel at this point and is taken as an input.
Returns the updated accumulated slip magnitude and the state variable. -/
def calcStateVariableHook (acc resampledSlipRate deltaT dC : ℝ) : ℝ × ℝ :=
  (updateSlip acc resampledSlipRate deltaT,
   stateVariableOf (updateSlip acc resampledSlipRate deltaT) dC)

/-- Successive state-variable stage updates of the accumulated slip
magnitude at one point: fold of `calcStateVariableHook` over a list of
(resampledSlipRate, deltaT) pairs. -/
def runStateVariableStages (dC acc : ℝ) (steps : List (ℝ × ℝ)) : ℝ :=
  steps.foldl (fun a s => (calcStateVariableHook a s.1 s.2 dC).1) acc

/-- Loop body of `LinearSlipWeakeningLaw::frictionFunctionHook`:
`mu = muS - (muS - muD) * stateVariable`. -/
def frictionFunctionHook (muS muD stateVariable : ℝ) : ℝ :=
  muS - (muS - muD) * stateVariable

/-- Threshold `u0 = 10e-14` below which slip rate counts as zero for
instantaneous healing. -/
def u0 : ℝ := 10e-14

/-- Loop body of `LinearSlipWeakeningLaw::instantaneousHealing` for one
point: reset mu to muS and accumulated slip to 0 when the slip-rate
magnitude drops below `u0`.  Returns (mu, accumulatedSlipMagnitude). -/
def instantaneousHealing (slipRateMagnitude muS mu acc : ℝ) : ℝ × ℝ :=
  if slipRateMagnitude < u0 then (muS, 0) else (mu, acc)

/-- The single-point scenario of the spec: strength 5, predicted total
traction components (8, 0) (taken entirely from the initial stress, with
zero kernel tractions), and a face whose stored invEtaS is the inverse of
its etaS. -/
def scenarioInput (etaS : ℝ) : SlipRateInput :=
  { initialStress3 := 8
    initialStress5 := 0
    faultTraction1 := 0
    faultTraction2 := 0
    strengthVal := 5
    impAndEta := { etaS := etaS, invEtaS := 1 / etaS }
    deltaT := 0
    slip1 := 0
    slip2 := 0 }

/-- Per-point diagnostics state touched by `Common::saveRuptureFrontOutput`
and `LinearSlipWeakeningLaw::saveDynamicStressOutput`. -/
structure OutputState where
  ruptureTimePending : Bool
  ruptureTime : ℝ
  dynStressTimePending : Bool
  dynStressTime : ℝ

/-- The rupture front threshold 0.001 on the slip-rate magnitude. -/
def ruptureFrontThreshold : ℝ := 0.001

/-- Loop body of `Common::saveRuptureFrontOutput` for one point. -/
def saveRuptureFrontOutput (s : OutputState) (slipRateMagnitude fullUpdateTime : ℝ) :
    OutputState :=
  if s.ruptureTimePending = true ∧ slipRateMagnitude > ruptureFrontThreshold then
    { s with ruptureTime := fullUpdateTime, ruptureTimePending := false }
  else s

/-- Loop body of `LinearSlipWeakeningLaw::saveDynamicStressOutput` for one
point. -/
def saveDynamicStressOutput (s : OutputState)
    (accumulatedSlipMagnitude dC fullUpdateTime : ℝ) : OutputState :=
  if s.dynStressTimePending = true ∧ |accumulatedSlipMagnitude| ≥ dC then
    { s with dynStressTime := fullUpdateTime, dynStressTimePending := false }
  else s

/-- One call to either diagnostics routine at one point, with the per-call
inputs it reads. -/
inductive OutputEvent where
  | rupture (slipRateMagnitude fullUpdateTime : ℝ)
  | dynStress (accumulatedSlipMagnitude dC fullUpdateTime : ℝ)

/-- Apply one diagnostics call to the per-point output state. -/
def applyOutputEvent (s : OutputState) (e : OutputEvent) : OutputState :=
  match e with
  | OutputEvent.rupture sr t => saveRuptureFrontOutput s sr t
  | OutputEvent.dynStress a d t => saveDynamicStressOutput s a d t

/-- Run a sequence of diagnostics calls on the per-point output state. -/
def runOutputEvents (s : OutputState) (es : List OutputEvent) : OutputState :=
  es.foldl applyOutputEvent s

end LinearSlipWeakeningLaw

namespace Common

/-- `Common::saveAverageSlipOutput`: add the mean of the first
`numberOfBoundaryGaussPoints` entries of `tmpSlip` (the padded tail is not
read) to the running `averagedSlip` accumulator. -/
def saveAverageSlipOutput (numberOfBoundaryGaussPoints : ℕ) (tmpSlip : ℕ → ℝ)
    (averagedSlip : ℝ) : ℝ :=
  averagedSlip +
    (∑ i in Finset.range numberOfBoundaryGaussPoints, tmpSlip i) /
      (numberOfBoundaryGaussPoints : ℝ)

/-- The zero-initialization loop of
`Common::postcomputeImposedStateFromNewStress`: every entry of the output
buffer is overwritten with 0. -/
def zeroBuffer (b : ℕ → ℝ) : ℕ → ℝ := fun _ => (0 : ℝ)

/-- `Common::postcomputeImposedStateFromNewStress`.  Modelled from the
spec: the generated `computeImposedStateM/P` kernels are opaque numerical
primitives; per the spec each sub-interval contributes additively to the
output buffer, weighted by its time-quadrature weight, so the kernel body
is modelled as an arbitrary per-sub-interval, per-entry contribution
`kernelPlus`/`kernelMinus` accumulated with weight `timeWeights o`.  The
function first zeroes both output buffers (the loop at the top of the C++
function), then folds the weighted contributions over the sub-intervals. -/
def postcomputeImposedStateFromNewStress (order : ℕ) (timeWeights : ℕ → ℝ)
    (kernelPlus kernelMinus : ℕ → ℕ → ℝ)
    (imposedStatePlus imposedStateMinus : ℕ → ℝ) : (ℕ → ℝ) × (ℕ → ℝ) :=
  ((List.range order).foldl
      (fun s o => fun i => s i + timeWeights o * kernelPlus o i)
      (zeroBuffer imposedStatePlus),
   (List.range order).foldl
      (fun s o => fun i => s i + timeWeights o * kernelMinus o i)
      (zeroBuffer imposedStateMinus))

end Common

end seissol

end

namespace seissol

open LinearSlipWeakeningLaw

/-! Projection lemmas unfolding the fields of `calcSlipRateAndTraction`. -/

theorem calcSlipRateAndTraction_slipRateMagnitude (inp : SlipRateInput) :
    (calcSlipRateAndTraction inp).slipRateMagnitude =
      max 0 ((misc.magnitude (totalTraction1 inp) (totalTraction2 inp) - inp.strengthVal) *
        inp.impAndEta.invEtaS) := rfl

theorem calcSlipRateAndTraction_slipRate1 (inp : SlipRateInput) :
    (calcSlipRateAndTraction inp).slipRate1 =
      (calcSlipRateAndTraction inp).slipRateMagnitude * totalTraction1 inp / divisor inp := rfl

theorem calcSlipRateAndTraction_slipRate2 (inp : SlipRateInput) :
    (calcSlipRateAndTraction inp).slipRate2 =
      (calcSlipRateAndTraction inp).slipRateMagnitude * totalTraction2 inp / divisor inp := rfl

theorem calcSlipRateAndTraction_traction1 (inp : SlipRateInput) :
    (calcSlipRateAndTraction inp).traction1 =
      inp.faultTraction1 - inp.impAndEta.etaS * (calcSlipRateAndTraction inp).slipRate1 := rfl

theorem calcSlipRateAndTraction_traction2 (inp : SlipRateInput) :
    (calcSlipRateAndTraction inp).traction2 =
      inp.faultTraction2 - inp.impAndEta.etaS * (calcSlipRateAndTraction inp).slipRate2 := rfl

theorem calcSlipRateAndTraction_slip1 (inp : SlipRateInput) :
    (calcSlipRateAndTraction inp).slip1 =
      inp.slip1 + (calcSlipRateAndTraction inp).slipRate1 * inp.deltaT := rfl

theorem calcSlipRateAndTraction_slip2 (inp : SlipRateInput) :
    (calcSlipRateAndTraction inp).slip2 =
      inp.slip2 + (calcSlipRateAndTraction inp).slipRate2 * inp.deltaT := rfl

/-- C1: for every fault face, time sub-interval and point (i.e. for every
per-point input), `calcSlipRateAndTraction` sets the slip-rate magnitude
to max(0, (|T| - strength) * invEtaS) with T the sum of initial and
kernel-computed shear tractions and |T| their euclidean magnitude, and
consequently the slip-rate magnitude is nonnegative. -/
theorem calcSlipRateAndTraction_slipRate_formula_and_nonneg (inp : SlipRateInput) :
    (calcSlipRateAndTraction inp).slipRateMagnitude =
      max 0 ((misc.magnitude (totalTraction1 inp) (totalTraction2 inp) - inp.strengthVal) *
        inp.impAndEta.invEtaS) ∧
    0 ≤ (calcSlipRateAndTraction inp).slipRateMagnitude :=
  ⟨rfl, le_max_left _ _⟩

/-- C2: the strength stage computes
strength = -cohesion - mu * min(totalNormalStress, 0); under compression
(totalNormalStress ≤ 0, with the sign conventions mu ≥ 0 and cohesion ≤ 0
of the data model) the strength is nonnegative, and under tension or zero
normal stress the cohesion term alone contributes: strength = -cohesion. -/
theorem calcStrengthHook_formula_and_signs (inp : StrengthInput)
    (hmu : 0 ≤ inp.mu) (hcoh : inp.cohesion ≤ 0) :
    calcStrengthHook inp = -inp.cohesion - inp.mu * min (totalNormalStress inp) 0 ∧
    (totalNormalStress inp ≤ 0 → 0 ≤ calcStrengthHook inp) ∧
    (0 ≤ totalNormalStress inp → calcStrengthHook inp = -inp.cohesion) := by
  refine ⟨rfl, ?_, ?_⟩
  · intro h
    have hmin : min (totalNormalStress inp) 0 = totalNormalStress inp := min_eq_left h
    simp only [calcStrengthHook, hmin]
    nlinarith
  · intro h
    have hmin : min (totalNormalStress inp) 0 = 0 := min_eq_right h
    simp only [calcStrengthHook, hmin]
    ring

/-- Witness for C2 at the concrete input initialStress0 = -1,
normalStress = -1, cohesion = -1, mu = 1/2 (compressive). -/
theorem calcStrengthHook_formula_and_signs_witness :
    0 ≤ calcStrengthHook ⟨-1, -1, -1, 1/2⟩ :=
  (calcStrengthHook_formula_and_signs ⟨-1, -1, -1, 1/2⟩ (by norm_num)
    (by norm_num)).2.1 (by norm_num [totalNormalStress])

/-- C5: after the state-variable stage (identity specialization hook) the
state variable equals min(|accumulatedSlipMagnitude| / dC, 1), and under
dC > 0 it lies in [0, 1]. -/
theorem calcStateVariableHook_clamped (acc resampledSlipRate deltaT dC : ℝ)
    (hdC : 0 < dC) :
    (calcStateVariableHook acc resampledSlipRate deltaT dC).2 =
      min (|updateSlip acc resampledSlipRate deltaT| / dC) 1 ∧
    0 ≤ (calcStateVariableHook acc resampledSlipRate deltaT dC).2 ∧
    (calcStateVariableHook acc resampledSlipRate deltaT dC).2 ≤ 1 :=
  ⟨rfl, le_min (div_nonneg (abs_nonneg _) hdC.le) zero_le_one, min_le_right _ _⟩

/-- Witness for C5 at acc = 0, resampledSlipRate = 1, deltaT = 1, dC = 2. -/
theorem calcStateVariableHook_clamped_witness :
    0 ≤ (calcStateVariableHook 0 1 1 2).2 ∧ (calcStateVariableHook 0 1 1 2).2 ≤ 1 :=
  (calcStateVariableHook_clamped 0 1 1 2 (by norm_num)).2

/-- C7: with strength > 0 and etaS > 0 at a point, the divisor
strength + etaS * slipRateMagnitude used by `calcSlipRateAndTraction` is
strictly positive, so the directional slip-rate divisions never divide by
zero. -/
theorem divisor_pos (inp : SlipRateInput)
    (hstr : 0 < inp.strengthVal) (heta : 0 < inp.impAndEta.etaS) :
    0 < divisor inp := by
  have hsrm : 0 ≤ (calcSlipRateAndTraction inp).slipRateMagnitude := le_max_left _ _
  have hprod : 0 ≤ inp.impAndEta.etaS * (calcSlipRateAndTraction inp).slipRateMagnitude :=
    mul_nonneg heta.le hsrm
  unfold divisor
  linarith

/-- Witness for C7 at a point with strength 1, etaS 1 and zero stresses. -/
theorem divisor_pos_witness :
    0 < divisor ⟨0, 0, 0, 0, 1, ⟨1, 1⟩, 0, 0, 0⟩ :=
  divisor_pos ⟨0, 0, 0, 0, 1, ⟨1, 1⟩, 0, 0, 0⟩ (by norm_num) (by norm_num)

/-- C10: the outputs of `postcomputeImposedStateFromNewStress` do not
depend on the prior contents of the two output buffers, because the
function zeroes every entry of both buffers before accumulating the
weighted per-sub-interval contributions. -/
theorem postcomputeImposedState_ignores_prior (order : ℕ) (timeWeights : ℕ → ℝ)
    (kernelPlus kernelMinus : ℕ → ℕ → ℝ) (p1 m1 p2 m2 : ℕ → ℝ) :
    Common.postcomputeImposedStateFromNewStress order timeWeights kernelPlus kernelMinus p1 m1 =
      Common.postcomputeImposedStateFromNewStress order timeWeights kernelPlus kernelMinus
        p2 m2 := rfl

/-- C3: if the elastic-prediction shear traction magnitude is strictly
below the strength at a point (with strength positive and invEtaS
nonnegative, as guaranteed by construction of the impedances), the point
slips at rate exactly zero, its output tractions equal the
elastic-prediction tractions, and its directional slip accumulators are
unchanged. -/
theorem calcSlipRateAndTraction_below_strength_identity (inp : SlipRateInput)
    (hstr : 0 < inp.strengthVal) (hinv : 0 ≤ inp.impAndEta.invEtaS)
    (hbelow : misc.magnitude (totalTraction1 inp) (totalTraction2 inp) < inp.strengthVal) :
    (calcSlipRateAndTraction inp).slipRateMagnitude = 0 ∧
    (calcSlipRateAndTraction inp).traction1 = inp.faultTraction1 ∧
    (calcSlipRateAndTraction inp).traction2 = inp.faultTraction2 ∧
    (calcSlipRateAndTraction inp).slip1 = inp.slip1 ∧
    (calcSlipRateAndTraction inp).slip2 = inp.slip2 := by
  have hprod : 0 ≤
      (inp.strengthVal - misc.magnitude (totalTraction1 inp) (totalTraction2 inp)) *
        inp.impAndEta.invEtaS := mul_nonneg (by linarith) hinv
  have hle : (misc.magnitude (totalTraction1 inp) (totalTraction2 inp) - inp.strengthVal) *
      inp.impAndEta.invEtaS ≤ 0 := by nlinarith
  have hsrm : (calcSlipRateAndTraction inp).slipRateMagnitude = 0 := by
    rw [calcSlipRateAndTraction_slipRateMagnitude]
    exact max_eq_left hle
  have hsr1 : (calcSlipRateAndTraction inp).slipRate1 = 0 := by
    rw [calcSlipRateAndTraction_slipRate1, hsrm, zero_mul, zero_div]
  have hsr2 : (calcSlipRateAndTraction inp).slipRate2 = 0 := by
    rw [calcSlipRateAndTraction_slipRate2, hsrm, zero_mul, zero_div]
  refine ⟨hsrm, ?_, ?_, ?_, ?_⟩
  · rw [calcSlipRateAndTraction_traction1, hsr1, mul_zero, sub_zero]
  · rw [calcSlipRateAndTraction_traction2, hsr2, mul_zero, sub_zero]
  · rw [calcSlipRateAndTraction_slip1, hsr1, zero_mul, add_zero]
  · rw [calcSlipRateAndTraction_slip2, hsr2, zero_mul, add_zero]

/-- Witness for C3 at total traction (3, 4) (magnitude 5), strength 6,
etaS = invEtaS = 1. -/
theorem calcSlipRateAndTraction_below_strength_identity_witness :
    (calcSlipRateAndTraction ⟨3, 0, 0, 4, 6, ⟨1, 1⟩, 1, 0, 0⟩).slipRateMagnitude = 0 := by
  have hmag : misc.magnitude (totalTraction1 ⟨3, 0, 0, 4, 6, ⟨1, 1⟩, 1, 0, 0⟩)
      (totalTraction2 ⟨3, 0, 0, 4, 6, ⟨1, 1⟩, 1, 0, 0⟩) = 5 := by
    simp only [misc.magnitude, totalTraction1, totalTraction2]
    norm_num
    rw [show ((25:ℝ)) = 5 ^ 2 by norm_num]
    exact Real.sqrt_sq (by norm_num)
  exact (calcSlipRateAndTraction_below_strength_identity ⟨3, 0, 0, 4, 6, ⟨1, 1⟩, 1, 0, 0⟩
    (by norm_num) (by norm_num) (by rw [hmag]; norm_num)).1

/-- C4: in the spec scenario (single point, strength 5, predicted total
traction (8, 0), invEtaS = 1/etaS with etaS > 0), the slip-rate magnitude
is (8 - 5) * invEtaS, the final total traction (initial plus result) is
(5, 0), its magnitude is exactly the strength 5, and it points along the
predicted direction: both components are the prediction scaled by 5/8. -/
theorem calcSlipRateAndTraction_clips_to_strength (etaS : ℝ) (hpos : 0 < etaS) :
    (calcSlipRateAndTraction (scenarioInput etaS)).slipRateMagnitude = (8 - 5) * (1 / etaS) ∧
    (scenarioInput etaS).initialStress3 +
      (calcSlipRateAndTraction (scenarioInput etaS)).traction1 = 5 ∧
    (scenarioInput etaS).initialStress5 +
      (calcSlipRateAndTraction (scenarioInput etaS)).traction2 = 0 ∧
    misc.magnitude
      ((scenarioInput etaS).initialStress3 +
        (calcSlipRateAndTraction (scenarioInput etaS)).traction1)
      ((scenarioInput etaS).initialStress5 +
        (calcSlipRateAndTraction (scenarioInput etaS)).traction2) = 5 ∧
    (scenarioInput etaS).initialStress3 +
      (calcSlipRateAndTraction (scenarioInput etaS)).traction1 =
        (5 / 8) * totalTraction1 (scenarioInput etaS) ∧
    (scenarioInput etaS).initialStress5 +
      (calcSlipRateAndTraction (scenarioInput etaS)).traction2 =
        (5 / 8) * totalTraction2 (scenarioInput etaS) := by
  have hne : etaS ≠ 0 := ne_of_gt hpos
  have htt1 : totalTraction1 (scenarioInput etaS) = 8 := by
    simp [totalTraction1, scenarioInput]
  have htt2 : totalTraction2 (scenarioInput etaS) = 0 := by
    simp [totalTraction2, scenarioInput]
  have hmag : misc.magnitude (totalTraction1 (scenarioInput etaS))
      (totalTraction2 (scenarioInput etaS)) = 8 := by
    rw [htt1, htt2]
    simp only [misc.magnitude]
    norm_num
    rw [show ((64:ℝ)) = 8 ^ 2 by norm_num]
    exact Real.sqrt_sq (by norm_num)
  have hstrength : (scenarioInput etaS).strengthVal = 5 := rfl
  have hetaS : (scenarioInput etaS).impAndEta.etaS = etaS := rfl
  have hinv : (scenarioInput etaS).impAndEta.invEtaS = 1 / etaS := rfl
  have hsrm : (calcSlipRateAndTraction (scenarioInput etaS)).slipRateMagnitude = 3 / etaS := by
    rw [calcSlipRateAndTraction_slipRateMagnitude, hmag, hstrength, hinv]
    rw [max_eq_right (mul_nonneg (by norm_num) (one_div_nonneg.mpr hpos.le))]
    ring
  have hdiv : divisor (scenarioInput etaS) = 8 := by
    rw [divisor, hsrm, hstrength, hetaS]
    field_simp
    norm_num
  have hsr1 : (calcSlipRateAndTraction (scenarioInput etaS)).slipRate1 = 3 / etaS := by
    rw [calcSlipRateAndTraction_slipRate1, hsrm, hdiv, htt1]
    field_simp
    ring
  have hsr2 : (calcSlipRateAndTraction (scenarioInput etaS)).slipRate2 = 0 := by
    rw [calcSlipRateAndTraction_slipRate2, hsrm, hdiv, htt2, mul_zero, zero_div]
  have hf1 : (scenarioInput etaS).faultTraction1 = 0 := rfl
  have hf2 : (scenarioInput etaS).faultTraction2 = 0 := rfl
  have ht1 : (calcSlipRateAndTraction (scenarioInput etaS)).traction1 = -3 := by
    rw [calcSlipRateAndTraction_traction1, hsr1, hetaS, hf1]
    field_simp
  have ht2 : (calcSlipRateAndTraction (scenarioInput etaS)).traction2 = 0 := by
    rw [calcSlipRateAndTraction_traction2, hsr2, hetaS, hf2, mul_zero, sub_zero]
  have hi3 : (scenarioInput etaS).initialStress3 = 8 := rfl
  have hi5 : (scenarioInput etaS).initialStress5 = 0 := rfl
  refine ⟨?_, ?_, ?_, ?_, ?_, ?_⟩
  · rw [hsrm]; ring
  · rw [hi3, ht1]; norm_num
  · rw [hi5, ht2]; norm_num
  · rw [hi3, hi5, ht1, ht2]
    simp only [misc.magnitude]
    norm_num
    rw [show ((25:ℝ)) = 5 ^ 2 by norm_num]
    exact Real.sqrt_sq (by norm_num)
  · rw [hi3, ht1, htt1]; norm_num
  · rw [hi5, ht2, htt2]; norm_num

/-- Witness for C4 at etaS = 2. -/
theorem calcSlipRateAndTraction_clips_to_strength_witness :
    (calcSlipRateAndTraction (scenarioInput 2)).slipRateMagnitude = (8 - 5) * (1 / 2) :=
  (calcSlipRateAndTraction_clips_to_strength 2 (by norm_num)).1

/-! One-step lemmas for the diagnostics flags. -/

theorem applyOutputEvent_rupture_mono (s : OutputState) (e : OutputEvent)
    (h : (applyOutputEvent s e).ruptureTimePending = true) : s.ruptureTimePending = true := by
  cases e with
  | rupture sr t =>
    simp only [applyOutputEvent, saveRuptureFrontOutput] at h
    split at h
    · simp at h
    · exact h
  | dynStress a d t =>
    simp only [applyOutputEvent, saveDynamicStressOutput] at h
    split at h
    · exact h
    · exact h

theorem applyOutputEvent_dynStress_mono (s : OutputState) (e : OutputEvent)
    (h : (applyOutputEvent s e).dynStressTimePending = true) :
    s.dynStressTimePending = true := by
  cases e with
  | rupture sr t =>
    simp only [applyOutputEvent, saveRuptureFrontOutput] at h
    split at h
    · exact h
    · exact h
  | dynStress a d t =>
    simp only [applyOutputEvent, saveDynamicStressOutput] at h
    split at h
    · simp at h
    · exact h

theorem applyOutputEvent_rupture_frozen (s : OutputState) (e : OutputEvent)
    (h : s.ruptureTimePending = false) :
    (applyOutputEvent s e).ruptureTimePending = false ∧
      (applyOutputEvent s e).ruptureTime = s.ruptureTime := by
  cases e with
  | rupture sr t =>
    simp only [applyOutputEvent, saveRuptureFrontOutput]
    split
    · rename_i hc
      rw [h] at hc
      simp at hc
    · exact ⟨h, rfl⟩
  | dynStress a d t =>
    simp only [applyOutputEvent, saveDynamicStressOutput]
    split
    · exact ⟨h, rfl⟩
    · exact ⟨h, rfl⟩

theorem applyOutputEvent_dynStress_frozen (s : OutputState) (e : OutputEvent)
    (h : s.dynStressTimePending = false) :
    (applyOutputEvent s e).dynStressTimePending = false ∧
      (applyOutputEvent s e).dynStressTime = s.dynStressTime := by
  cases e with
  | rupture sr t =>
    simp only [applyOutputEvent, saveRuptureFrontOutput]
    split
    · exact ⟨h, rfl⟩
    · exact ⟨h, rfl⟩
  | dynStress a d t =>
    simp only [applyOutputEvent, saveDynamicStressOutput]
    split
    · rename_i hc
      rw [h] at hc
      simp at hc
    · exact ⟨h, rfl⟩

theorem runOutputEvents_cons (s : OutputState) (e : OutputEvent) (es : List OutputEvent) :
    runOutputEvents s (e :: es) = runOutputEvents (applyOutputEvent s e) es := rfl

theorem runOutputEvents_rupture_frozen (es : List OutputEvent) (s : OutputState)
    (h : s.ruptureTimePending = false) :
    (runOutputEvents s es).ruptureTimePending = false ∧
      (runOutputEvents s es).ruptureTime = s.ruptureTime := by
  induction es generalizing s with
  | nil => exact ⟨h, rfl⟩
  | cons e es ih =>
    rw [runOutputEvents_cons]
    have h1 := applyOutputEvent_rupture_frozen s e h
    have h2 := ih (applyOutputEvent s e) h1.1
    exact ⟨h2.1, h2.2.trans h1.2⟩

theorem runOutputEvents_dynStress_frozen (es : List OutputEvent) (s : OutputState)
    (h : s.dynStressTimePending = false) :
    (runOutputEvents s es).dynStressTimePending = false ∧
      (runOutputEvents s es).dynStressTime = s.dynStressTime := by
  induction es generalizing s with
  | nil => exact ⟨h, rfl⟩
  | cons e es ih =>
    rw [runOutputEvents_cons]
    have h1 := applyOutputEvent_dynStress_frozen s e h
    have h2 := ih (applyOutputEvent s e) h1.1
    exact ⟨h2.1, h2.2.trans h1.2⟩

theorem runOutputEvents_rupture_mono (es : List OutputEvent) (s : OutputState)
    (h : (runOutputEvents s es).ruptureTimePending = true) : s.ruptureTimePending = true := by
  induction es generalizing s with
  | nil => exact h
  | cons e es ih =>
    rw [runOutputEvents_cons] at h
    exact applyOutputEvent_rupture_mono s e (ih _ h)

theorem runOutputEvents_dynStress_mono (es : List OutputEvent) (s : OutputState)
    (h : (runOutputEvents s es).dynStressTimePending = true) :
    s.dynStressTimePending = true := by
  induction es generalizing s with
  | nil => exact h
  | cons e es ih =>
    rw [runOutputEvents_cons] at h
    exact applyOutputEvent_dynStress_mono s e (ih _ h)

/-- C6: over any sequence of `saveRuptureFrontOutput` and
`saveDynamicStressOutput` calls at a point, each pending flag never
transitions false to true (so it goes true to false at most once), and
once a flag is false the corresponding recorded time is never modified
again. -/
theorem outputFlags_write_once (s : OutputState) (es : List OutputEvent) :
    ((runOutputEvents s es).ruptureTimePending = true → s.ruptureTimePending = true) ∧
    ((runOutputEvents s es).dynStressTimePending = true → s.dynStressTimePending = true) ∧
    (s.ruptureTimePending = false →
      (runOutputEvents s es).ruptureTimePending = false ∧
        (runOutputEvents s es).ruptureTime = s.ruptureTime) ∧
    (s.dynStressTimePending = false →
      (runOutputEvents s es).dynStressTimePending = false ∧
        (runOutputEvents s es).dynStressTime = s.dynStressTime) :=
  ⟨runOutputEvents_rupture_mono es s, runOutputEvents_dynStress_mono es s,
   runOutputEvents_rupture_frozen es s, runOutputEvents_dynStress_frozen es s⟩

/-- Witness for C6: a point whose rupture flag is already cleared keeps
its recorded rupture time 7 across a further rupture-front call. -/
theorem outputFlags_write_once_witness :
    (runOutputEvents ⟨false, 7, true, 0⟩ [OutputEvent.rupture 1 9]).ruptureTime = 7 :=
  ((outputFlags_write_once ⟨false, 7, true, 0⟩ [OutputEvent.rupture 1 9]).2.2.1 rfl).2

/-! Monotonicity of the accumulated slip magnitude. -/

theorem runStateVariableStages_cons (dC acc : ℝ) (st : ℝ × ℝ) (steps : List (ℝ × ℝ)) :
    runStateVariableStages dC acc (st :: steps) =
      runStateVariableStages dC (updateSlip acc st.1 st.2) steps := rfl

theorem runStateVariableStages_le (dC : ℝ) (steps : List (ℝ × ℝ)) :
    ∀ acc : ℝ, 0 ≤ acc → (∀ st ∈ steps, 0 ≤ st.1 ∧ 0 ≤ st.2) →
      acc ≤ runStateVariableStages dC acc steps := by
  induction steps with
  | nil =>
    intro acc _ _
    exact le_refl acc
  | cons st steps ih =>
    intro acc hacc hsteps
    have hst := hsteps st (List.mem_cons_self st steps)
    have hstep : acc ≤ updateSlip acc st.1 st.2 :=
      le_add_of_nonneg_right (mul_nonneg hst.1 hst.2)
    have htail := ih (updateSlip acc st.1 st.2) (le_trans hacc hstep)
      (fun u hu => hsteps u (List.mem_cons_of_mem st hu))
    rw [runStateVariableStages_cons]
    exact le_trans hstep htail

/-- C8: starting from a nonnegative accumulated slip magnitude, its
absolute value is non-decreasing across any sequence of state-variable
stage updates whose resampled slip rate and time increment are
nonnegative; and the instantaneous-healing path (unused in the reference
policy) is the identity unless the slip-rate magnitude drops below u0, so
it is the only operation that can reset the accumulator. -/
theorem accumulatedSlipMagnitude_monotone (dC acc : ℝ) (steps : List (ℝ × ℝ))
    (hacc : 0 ≤ acc) (hsteps : ∀ st ∈ steps, 0 ≤ st.1 ∧ 0 ≤ st.2) :
    |acc| ≤ |runStateVariableStages dC acc steps| ∧
    (∀ slipRateMagnitude muSv muv accv : ℝ, u0 ≤ slipRateMagnitude →
      instantaneousHealing slipRateMagnitude muSv muv accv = (muv, accv)) := by
  constructor
  · have h1 := runStateVariableStages_le dC steps acc hacc hsteps
    rw [abs_of_nonneg hacc, abs_of_nonneg (le_trans hacc h1)]
    exact h1
  · intro sr muSv muv accv hsr
    simp only [instantaneousHealing]
    rw [if_neg (not_lt.mpr hsr)]

/-- Witness for C8 with acc = 0, one update (resampledSlipRate 1,
deltaT 1), dC = 1. -/
theorem accumulatedSlipMagnitude_monotone_witness :
    |(0:ℝ)| ≤ |runStateVariableStages 1 0 [(1, 1)]| :=
  (accumulatedSlipMagnitude_monotone 1 0 [(1, 1)] (by norm_num)
    (by
      intro st hst
      rw [List.mem_singleton] at hst
      subst hst
      exact ⟨by norm_num, by norm_num⟩)).1

/-- C9: `saveAverageSlipOutput` increases the accumulator by exactly the
sum of the first numberOfBoundaryGaussPoints entries of tmpSlip divided
by numberOfBoundaryGaussPoints, and the result does not depend on the
padded tail entries. -/
theorem saveAverageSlipOutput_mean_increment (n : ℕ) (tmpSlip tmpSlipB : ℕ → ℝ)
    (averagedSlip : ℝ) (hagree : ∀ i < n, tmpSlip i = tmpSlipB i) :
    Common.saveAverageSlipOutput n tmpSlip averagedSlip - averagedSlip =
      (∑ i in Finset.range n, tmpSlip i) / (n : ℝ) ∧
    Common.saveAverageSlipOutput n tmpSlip averagedSlip =
      Common.saveAverageSlipOutput n tmpSlipB averagedSlip := by
  constructor
  · simp only [Common.saveAverageSlipOutput]
    ring
  · simp only [Common.saveAverageSlipOutput]
    have hsum : (∑ i in Finset.range n, tmpSlip i) = ∑ i in Finset.range n, tmpSlipB i :=
      Finset.sum_congr rfl (fun i hi => hagree i (Finset.mem_range.mp hi))
    rw [hsum]

/-- Witness for C9: with 4 boundary points and tmpSlip constantly 1 (sum
4.0), the accumulator increases from 0 by exactly 1. -/
theorem saveAverageSlipOutput_mean_increment_witness :
    Common.saveAverageSlipOutput 4 (fun _ => 1) 0 = 1 := by
  have h := (saveAverageSlipOutput_mean_increment 4 (fun _ => 1) (fun _ => 1) 0
    (fun _ _ => rfl)).1
  norm_num [Finset.sum_const] at h
  linarith

end seissol
